import Mathlib

/-!
Verification of the email-service core (`src/services/emailService.ts`,
`src/routes/email.ts`) against its natural-language specification.

The TypeScript source is shallowly embedded below: pure helpers
(`replaceVariables`, `validateRecipient`) become Lean functions on
`List Char` / `String`; the effectful `sendEmail` and the HTTP handler
`sendEmailHandler` become pure functions that additionally return an
observation trace (which error was thrown, whether an SMTP client was
constructed and with which TLS setting, which recipients were attempted,
which messages were handed to the SMTP client).  The SMTP server's
behaviour is abstracted as an oracle `EmailRecipient → Option String`
(`none` = the send resolves, `some msg` = the send rejects with an error
carrying `msg`), and the process environment as an `Env` record.
-/

/-- Mirrors the `EmailRecipient` interface of `emailService.ts`:
`email: string; firstName?: string; lastName?: string; company?: string`. -/
structure EmailRecipient where
  email : String
  firstName : Option String
  lastName : Option String
  company : Option String
deriving DecidableEq

/-- Mirrors the `SmtpConfig` interface of `emailService.ts`. -/
structure SmtpConfig where
  host : String
  port : Int
  user : String
  password : String
  secure : Bool
  fromEmail : String
  fromName : String
deriving DecidableEq

/-- A character admitted by the regex class `[^\s@]`: not whitespace and
not an at-sign. -/
def validChar (c : Char) : Bool :=
  !c.isWhitespace && c != '@'

/-- A nonempty run of `[^\s@]` characters, i.e. a string matched by the
regex piece `[^\s@]+`. -/
def seg (l : List Char) : Bool :=
  !l.isEmpty && l.all validChar

/-- Embedding of `/^[^\s@]+@[^\s@]+\.[^\s@]+$/.test(s)` from
`validateRecipient` (emailService.ts line 37).  The anchored regex accepts
`s` exactly when `s.data` decomposes as `A ++ @ ++ B ++ . ++ C` with `A`,
`B`, `C` nonempty runs of `[^\s@]` characters; writing `p` for the index
of the delimiting `@` and `q` for the index of the delimiting `.`
(`p < q`), the three runs are `take p`, the slice strictly between `p`
and `q`, and everything past `q`.  The `any` over both indices realises
the regex's existential choice of decomposition. -/
def emailRegexTest (s : String) : Bool :=
  let cs := s.data
  (List.range cs.length).any fun p =>
    (List.range cs.length).any fun q =>
      (cs.getD p ' ' == '@') && (cs.getD q ' ' == '.') && decide (p < q) &&
      seg (cs.take p) && seg ((cs.drop (p + 1)).take (q - (p + 1))) &&
      seg (cs.drop (q + 1))

/-- Mirrors `validateRecipient` (emailService.ts lines 36-39). -/
def validateRecipient (recipient : EmailRecipient) : Bool :=
  emailRegexTest recipient.email

/-- Case-insensitive character comparison, as performed by the `i` flag
of the replacement regexes in `replaceVariables`. -/
def ciEq (a b : Char) : Bool :=
  a.toLower == b.toLower

/-- Does `l` start with `pat`, comparing characters with `eqc`? -/
def startsWithBy (eqc : Char → Char → Bool) : List Char → List Char → Bool
  | [], _ => true
  | _ :: _, [] => false
  | a :: as, b :: bs => eqc a b && startsWithBy eqc as bs

/-- Does `pat` occur (contiguously) somewhere in `l`, comparing
characters with `eqc`?  Mirrors regex-match existence / `String.includes`. -/
def containsBy (eqc : Char → Char → Bool) (pat : List Char) : List Char → Bool
  | [] => startsWithBy eqc pat []
  | c :: rest => startsWithBy eqc pat (c :: rest) || containsBy eqc pat rest

/-- The four two-character substitution directives of ECMA-262
GetSubstitution that are active for a string replacement under a regex
with no capture groups: a dollar sign followed by another dollar sign,
by an ampersand, by a backquote (`Char.ofNat 96`) or by a straight
quote (`Char.ofNat 39`). -/
def isSubstDirective (d : Char) : Bool :=
  d == '$' || d == '&' || d == Char.ofNat 96 || d == Char.ofNat 39

/-- Does the replacement string contain an active substitution
directive, i.e. a dollar sign immediately followed by one of the four
directive characters?  When this is false, `getSubstitution` passes the
replacement through verbatim. -/
def hasSubstPattern : List Char → Bool
  | [] => false
  | [_] => false
  | c :: d :: rest => (c == '$' && isSubstDirective d) || hasSubstPattern (d :: rest)

/-- ECMA-262 GetSubstitution for a string replacement and a regex with
no capture groups, as `String.prototype.replace` performs it on each
match: in the replacement text, a dollar sign followed by a dollar sign
yields one dollar sign; followed by an ampersand yields the matched
subject text; followed by a backquote yields the portion of the subject
before the match; followed by a straight quote yields the portion after
the match; any other dollar sign (including numbered references, which
have no capture groups to refer to, and a lone trailing one) is taken
literally. -/
def getSubstitution (matched before after : List Char) : List Char → List Char
  | [] => []
  | [c] => [c]
  | c :: d :: rest =>
    if c == '$' then
      if d == '$' then '$' :: getSubstitution matched before after rest
      else if d == '&' then matched ++ getSubstitution matched before after rest
      else if d == Char.ofNat 96 then before ++ getSubstitution matched before after rest
      else if d == Char.ofNat 39 then after ++ getSubstitution matched before after rest
      else c :: d :: getSubstitution matched before after rest
    else c :: getSubstitution matched before after (d :: rest)

/-- One global, case-insensitive, left-to-right replacement pass, the
semantics of `text.replace(/pat/gi, rep)` for a literal pattern `pat`
and a string replacement `rep`: at each position, if `pat` matches
(case-insensitively), emit `rep` expanded by `getSubstitution` — fed
the actually matched subject text, the consumed prefix (carried
reversed in `acc`) and the remaining suffix — then resume after the
matched characters (the emitted replacement is not rescanned);
otherwise keep the character.  The `fuel` argument makes the recursion
structural; the wrapper `replTok` supplies `fuel = l.length`, which
suffices because every step consumes at least one character of a
nonempty pattern's match or one unmatched character. -/
def replTokAux (pat rep : List Char) : Nat → List Char → List Char → List Char
  | 0, _, l => l
  | _ + 1, _, [] => []
  | fuel + 1, acc, c :: rest =>
    if startsWithBy ciEq pat (c :: rest) then
      getSubstitution ((c :: rest).take pat.length) acc.reverse
          ((c :: rest).drop pat.length) rep ++
        replTokAux pat rep fuel (((c :: rest).take pat.length).reverse ++ acc)
          ((c :: rest).drop pat.length)
    else
      c :: replTokAux pat rep fuel (c :: acc) rest

/-- Global case-insensitive replacement of the literal `pat` by the
replacement string `rep` in `l`; see `replTokAux`. -/
def replTok (pat rep l : List Char) : List Char :=
  replTokAux pat rep l.length [] l

/-- Mirrors `recipient.firstName || ''` (and the analogous fallbacks):
an absent optional field is replaced by the empty string. -/
def orEmpty : Option String → String
  | some s => s
  | none => ""

/-- Mirrors `replaceVariables` (emailService.ts lines 28-34): the four
chained `.replace(/\[token\]/gi, field)` calls, applied in source order
first_name, last_name, email, company, each pass running over the result
of the previous one. -/
def replaceVariables (text : String) (recipient : EmailRecipient) : String :=
  String.mk
    (replTok "[company]".data (orEmpty recipient.company).data
      (replTok "[email]".data recipient.email.data
        (replTok "[last_name]".data (orEmpty recipient.lastName).data
          (replTok "[first_name]".data (orEmpty recipient.firstName).data
            text.data))))

/-- Index of the first `>` in `l`, if any; helper for the tag-stripping
regex `/<[^>]*>/g`. -/
def findClose : List Char → Option Nat
  | [] => none
  | c :: rest =>
    if c == '>' then some 0
    else (findClose rest).map (fun n => n + 1)

/-- Fuel-structured scanner for `html.replace(/<[^>]*>/g, '')`
(emailService.ts line 79): a `<` followed (possibly after non-`>`
characters) by a `>` is deleted together with everything between; a `<`
with no later `>` is kept. -/
def stripTagsAux : Nat → List Char → List Char
  | 0, l => l
  | _ + 1, [] => []
  | fuel + 1, c :: rest =>
    if c == '<' then
      match findClose rest with
      | some i => stripTagsAux fuel (rest.drop (i + 1))
      | none => c :: stripTagsAux fuel rest
    else c :: stripTagsAux fuel rest

/-- Mirrors `personalizedHtml.replace(/<[^>]*>/g, '')`. -/
def stripTags (s : String) : String :=
  String.mk (stripTagsAux s.data.length s.data)

/-- The valid partition class computed at emailService.ts line 47:
`to.filter(validateRecipient)`. -/
def validRecipients (toRecipients : List EmailRecipient) : List EmailRecipient :=
  toRecipients.filter validateRecipient

/-- The invalid partition class computed at emailService.ts line 48:
`to.filter(r => !validateRecipient(r))`. -/
def invalidRecipients (toRecipients : List EmailRecipient) : List EmailRecipient :=
  toRecipients.filter (fun r => !validateRecipient r)

/-- The relevant process environment: `NODE_ENV`, plus the
`TLS_REJECT_UNAUTHORIZED` variable that `.env.example` documents.  The
second field is carried so that theorems can quantify over it and show
the code never reads it (`sendEmailModel` consults only `nodeEnv`). -/
structure Env where
  nodeEnv : Option String
  tlsRejectUnauthorizedVar : Option String
deriving DecidableEq

/-- One message handed to `client.sendAsync` (emailService.ts lines
86-94), with its rendered fields. -/
structure SentMessage where
  fromField : String
  toAddr : String
  subject : String
  text : String
  attachmentData : String
deriving DecidableEq

/-- Builds the `sendAsync` argument for one recipient, mirroring the
loop body at emailService.ts lines 76-94: subject and html are rendered
per recipient, the plain text is the tag-stripped rendered html, and the
`from` header is `"{fromName} <{fromEmail}>"`. -/
def mkMessage (smtp : SmtpConfig) (subject html : String)
    (recipient : EmailRecipient) : SentMessage :=
  let personalizedSubject := replaceVariables subject recipient
  let personalizedHtml := replaceVariables html recipient
  let plainText := stripTags personalizedHtml
  { fromField := smtp.fromName ++ " <" ++ smtp.fromEmail ++ ">"
    toAddr := recipient.email
    subject := personalizedSubject
    text := plainText
    attachmentData := personalizedHtml }

/-- Result of running the send loop: the messages that resolved, the
recipients for which `sendAsync` was invoked at all, and the error of
the first rejected send, if any. -/
structure LoopResult where
  sent : List SentMessage
  attempted : List EmailRecipient
  err : Option String
deriving DecidableEq

/-- The `for (const recipient of validRecipients)` loop at
emailService.ts lines 76-99, with the surrounding try/catch of lines
74-106: sends run sequentially; the first rejected `sendAsync` makes the
whole loop stop (control jumps to the catch block, which rethrows), so
later recipients are never attempted. -/
def sendLoop (oracle : EmailRecipient → Option String) (smtp : SmtpConfig)
    (subject html : String) : List EmailRecipient → LoopResult
  | [] => { sent := [], attempted := [], err := none }
  | r :: rest =>
    match oracle r with
    | some e => { sent := [], attempted := [r], err := some e }
    | none =>
      let res := sendLoop oracle smtp subject html rest
      { sent := mkMessage smtp subject html r :: res.sent
        attempted := r :: res.attempted
        err := res.err }

/-- Observable outcome of one `sendEmail` call: the thrown error's
message if it threw (`none` = resolved normally), the TLS
`rejectUnauthorized` flag of the constructed `SMTPClient` (`none` = no
client was ever constructed), the resolved sends and the attempted
recipients. -/
structure EmailTrace where
  errorThrown : Option String
  sessionTls : Option Bool
  sent : List SentMessage
  attempted : List EmailRecipient
deriving DecidableEq

/-- Mirrors `sendEmail` (emailService.ts lines 41-107): partition the
recipients (lines 47-48), throw `'No valid recipients provided'` when no
recipient validates (lines 56-60) — before any `SMTPClient` is
constructed — otherwise construct the client with
`tls.rejectUnauthorized = (process.env.NODE_ENV === 'production')`
(lines 62-72) and run the send loop; an error thrown inside the loop is
caught, logged and rethrown (lines 100-106). -/
def sendEmailModel (oracle : EmailRecipient → Option String) (env : Env)
    (toRecipients : List EmailRecipient) (subject html : String) (smtp : SmtpConfig) :
    EmailTrace :=
  if (validRecipients toRecipients).length = 0 then
    { errorThrown := some "No valid recipients provided"
      sessionTls := none
      sent := []
      attempted := [] }
  else
    let res := sendLoop oracle smtp subject html (validRecipients toRecipients)
    { errorThrown := res.err
      sessionTls := some (env.nodeEnv == some "production")
      sent := res.sent
      attempted := res.attempted }

/-- Mirrors the `smtpConfig` shape of the request body in
`routes/email.ts` (interface `SmtpConfigValidation`). -/
structure SmtpConfigBody where
  host : String
  port : Int
  username : String
  password : String
  secure : Bool
  fromEmail : String
  fromName : String
deriving DecidableEq

/-- Mirrors the `EmailRequestBody` interface of `routes/email.ts`. -/
structure EmailRequestBody where
  recipients : List EmailRecipient
  subject : String
  body : String
  smtpConfig : SmtpConfigBody
deriving DecidableEq

/-- Embedding of `s.trim()`: the string with leading and trailing
whitespace removed. -/
def jsTrim (s : String) : String :=
  String.mk
    (((s.data.dropWhile Char.isWhitespace).reverse.dropWhile
      Char.isWhitespace).reverse)

/-- Mirrors `validateEmailRequest` (routes/email.ts lines 29-63) on a
well-typed body, returning the message of the error it throws, or `none`
when the body passes.  (The dynamic `typeof` and field-presence checks
cannot fail on a value of `EmailRequestBody`.) -/
def validateEmailRequestModel (b : EmailRequestBody) : Option String :=
  if b.recipients.isEmpty then some "Recipients must be a non-empty array"
  else if (jsTrim b.subject).length = 0 then some "Subject is required"
  else if (jsTrim b.body).length = 0 then some "Email body is required"
  else if ¬ 0 < b.smtpConfig.port then some "SMTP port must be a positive number"
  else none

/-- Field renaming done at routes/email.ts lines 81-89 when the handler
calls `sendEmail`. -/
def toSmtpConfig (c : SmtpConfigBody) : SmtpConfig :=
  { host := c.host
    port := c.port
    user := c.username
    password := c.password
    secure := c.secure
    fromEmail := c.fromEmail
    fromName := c.fromName }

/-- Mirrors the classification at routes/email.ts lines 110-112: an
error is treated as a validation error iff its message contains one of
the substrings `'required'`, `'must be'`, `'Missing'`. -/
def isValidationError (msg : String) : Bool :=
  containsBy (fun a b => a == b) "required".data msg.data ||
  containsBy (fun a b => a == b) "must be".data msg.data ||
  containsBy (fun a b => a == b) "Missing".data msg.data

/-- The JSON body and status the handler sends back. -/
structure HandlerResponse where
  status : Nat
  success : Bool
  message : String
  error : Option String
deriving DecidableEq

/-- The catch branch of `sendEmailHandler` (routes/email.ts lines
102-118): status 400 and the raw message for classified validation
errors, status 500 and `'Failed to send email'` otherwise; the `error`
field carries the raw message only when `NODE_ENV === 'development'`. -/
def errResponse (env : Env) (e : String) : HandlerResponse :=
  if isValidationError e then
    { status := 400
      success := false
      message := e
      error := if env.nodeEnv == some "development" then some e else none }
  else
    { status := 500
      success := false
      message := "Failed to send email"
      error := if env.nodeEnv == some "development" then some e else none }

/-- Mirrors `sendEmailHandler` (routes/email.ts lines 65-127): validate
the request shape (a thrown validation message goes to the catch
branch), call `sendEmail`, and on normal completion answer 200 with
`"Email sent successfully to N recipient(s)"` where `N` is
`recipients.length` — the length of the full request list. -/
def sendEmailHandlerModel (oracle : EmailRecipient → Option String)
    (env : Env) (b : EmailRequestBody) : HandlerResponse :=
  match validateEmailRequestModel b with
  | some e => errResponse env e
  | none =>
    let trace := sendEmailModel oracle env b.recipients b.subject b.body
      (toSmtpConfig b.smtpConfig)
    match trace.errorThrown with
    | some e => errResponse env e
    | none =>
      { status := 200
        success := true
        message := "Email sent successfully to " ++
          toString b.recipients.length ++ " recipient(s)"
        error := none }

/-- The claim-side reading of the address shape (spec section 4.1): no
whitespace anywhere, exactly one at-sign, and some dot strictly after
the at-sign with nonempty segments on both sides of the at-sign and
around that dot. -/
def specEmailShape (cs : List Char) : Prop :=
  (∀ c ∈ cs, ¬ c.isWhitespace) ∧
  (∃! p : Nat, p < cs.length ∧ cs.getD p ' ' = '@') ∧
  (∃ p q : Nat, cs.getD p ' ' = '@' ∧ cs.getD q ' ' = '.' ∧
    0 < p ∧ p + 1 < q ∧ q + 1 < cs.length)

/-! Concrete fixtures used by witness and counterexample theorems. -/

/-- An SMTP oracle under which every send resolves. -/
def oracleOk : EmailRecipient → Option String := fun _ => none

/-- An SMTP oracle that rejects exactly the send addressed to
`bob@example.com`, modelling a message-level rejection. -/
def oracleRejectBob : EmailRecipient → Option String := fun r =>
  if r.email == "bob@example.com" then some "550 mailbox rejected" else none

/-- An environment with `NODE_ENV` and `TLS_REJECT_UNAUTHORIZED` unset. -/
def env0 : Env := { nodeEnv := none, tlsRejectUnauthorizedVar := none }

/-- A concrete SMTP configuration. -/
def smtp0 : SmtpConfig :=
  { host := "smtp.example.com", port := 587, user := "user", password := "pw"
    secure := true, fromEmail := "noreply@example.com", fromName := "Acme" }

/-- The same configuration in request-body shape. -/
def smtpBody0 : SmtpConfigBody :=
  { host := "smtp.example.com", port := 587, username := "user", password := "pw"
    secure := true, fromEmail := "noreply@example.com", fromName := "Acme" }

/-- A recipient with a syntactically valid address. -/
def recAnn : EmailRecipient :=
  { email := "ann@example.com", firstName := some "Ann", lastName := none, company := none }

/-- A second valid recipient. -/
def recBob : EmailRecipient :=
  { email := "bob@example.com", firstName := none, lastName := none, company := none }

/-- A third valid recipient. -/
def recCid : EmailRecipient :=
  { email := "cid@example.com", firstName := none, lastName := none, company := none }

/-- A recipient whose address fails syntax validation. -/
def recBad : EmailRecipient :=
  { email := "not-an-email", firstName := none, lastName := none, company := none }

/-- A recipient whose address is accepted by the validation regex yet
contains the literal text of the company placeholder. -/
def recTok : EmailRecipient :=
  { email := "a[company]@b.co", firstName := none, lastName := none, company := none }

/-- A recipient whose address is accepted by the validation regex yet
contains the match directive dollar-ampersand. -/
def recDollar : EmailRecipient :=
  { email := "$&@x.co", firstName := none, lastName := none, company := none }

/-- A recipient whose first name is the literal email token and whose
address contains the dollar-dollar directive. -/
def recDollar2 : EmailRecipient :=
  { email := "$$@x.co", firstName := some "[email]", lastName := none, company := none }

/-- A recipient whose first name is the literal email token and whose
address contains the literal text of the company placeholder. -/
def recTok2 : EmailRecipient :=
  { email := "a[company]@b.co", firstName := some "[email]", lastName := none
    company := none }

/-- A well-shaped request whose single recipient fails syntax validation. -/
def reqAllInvalid : EmailRequestBody :=
  { recipients := [recBad], subject := "Hello", body := "World", smtpConfig := smtpBody0 }

/-- A well-shaped request with one valid and one invalid recipient. -/
def reqMixed : EmailRequestBody :=
  { recipients := [recAnn, recBad], subject := "Hello", body := "World", smtpConfig := smtpBody0 }

/-! General lemmas about the embedded operations. -/

theorem string_mk_data (s : String) : String.mk s.data = s := by
  cases s
  rfl

theorem replTokAux_nil (pat rep : List Char) (fuel : Nat) (acc : List Char) :
    replTokAux pat rep fuel acc [] = [] := by
  cases fuel <;> rfl

theorem replTokAux_not_contains (pat rep : List Char) :
    ∀ (fuel : Nat) (acc l : List Char), containsBy ciEq pat l = false →
      l.length ≤ fuel → replTokAux pat rep fuel acc l = l := by
  intro fuel
  induction fuel with
  | zero => intro acc l _ _; rfl
  | succ f ih =>
    intro acc l h hle
    cases l with
    | nil => rfl
    | cons c rest =>
      rw [containsBy, Bool.or_eq_false_iff] at h
      obtain ⟨hs, hc⟩ := h
      have hlen : rest.length ≤ f := by
        simp only [List.length_cons] at hle
        omega
      simp only [replTokAux, hs, Bool.false_eq_true, if_false]
      rw [ih (c :: acc) rest hc hlen]

theorem replTok_of_not_contains (pat rep l : List Char)
    (h : containsBy ciEq pat l = false) : replTok pat rep l = l :=
  replTokAux_not_contains pat rep l.length [] l h le_rfl

theorem replTok_full (pat rep l : List Char)
    (hs : startsWithBy ciEq pat l = true) (hlen : l.length = pat.length)
    (hne : l ≠ []) : replTok pat rep l = getSubstitution l [] [] rep := by
  cases l with
  | nil => exact absurd rfl hne
  | cons c rest =>
    show replTokAux pat rep (c :: rest).length [] (c :: rest)
      = getSubstitution (c :: rest) [] [] rep
    rw [show (c :: rest).length = rest.length + 1 from rfl]
    simp only [replTokAux, hs, if_true]
    rw [← hlen, List.take_length, List.drop_length, replTokAux_nil,
      List.append_nil, List.reverse_nil]

theorem hasSubstPattern_tail (x : Char) (xs : List Char)
    (h : hasSubstPattern (x :: xs) = false) : hasSubstPattern xs = false := by
  cases xs with
  | nil => rfl
  | cons y ys =>
    rw [hasSubstPattern, Bool.or_eq_false_iff] at h
    exact h.2

theorem getSubstitution_id_aux (m b a : List Char) :
    ∀ (n : Nat) (rep : List Char), rep.length ≤ n →
      hasSubstPattern rep = false → getSubstitution m b a rep = rep := by
  intro n
  induction n with
  | zero =>
    intro rep hlen _
    cases rep with
    | nil => rfl
    | cons c rest => simp at hlen
  | succ k ih =>
    intro rep hlen h
    cases rep with
    | nil => rfl
    | cons c rest =>
      cases rest with
      | nil => rfl
      | cons d rest2 =>
        rw [hasSubstPattern, Bool.or_eq_false_iff] at h
        obtain ⟨hpair, htail⟩ := h
        have hlen2 : (d :: rest2).length ≤ k := by
          simp only [List.length_cons] at hlen ⊢
          omega
        cases hcv : (c == '$') with
        | false =>
          simp only [getSubstitution, hcv, Bool.false_eq_true, if_false]
          rw [ih (d :: rest2) hlen2 htail]
        | true =>
          rw [hcv, Bool.true_and] at hpair
          rw [isSubstDirective] at hpair
          simp only [Bool.or_eq_false_iff] at hpair
          have htail2 : hasSubstPattern rest2 = false :=
            hasSubstPattern_tail d rest2 htail
          have hlen3 : rest2.length ≤ k := by
            simp only [List.length_cons] at hlen2
            omega
          simp only [getSubstitution, hcv, hpair.1.1.1, hpair.1.1.2,
            hpair.1.2, hpair.2, Bool.false_eq_true, if_false, if_true]
          rw [ih rest2 hlen3 htail2]

theorem getSubstitution_id (m b a rep : List Char)
    (h : hasSubstPattern rep = false) : getSubstitution m b a rep = rep :=
  getSubstitution_id_aux m b a rep.length rep le_rfl h

theorem replTok_full_clean (pat rep l : List Char)
    (hs : startsWithBy ciEq pat l = true) (hlen : l.length = pat.length)
    (hne : l ≠ []) (hd : hasSubstPattern rep = false) :
    replTok pat rep l = rep := by
  rw [replTok_full pat rep l hs hlen hne, getSubstitution_id _ _ _ rep hd]

theorem filter_length_partition {α : Type} (p : α → Bool) (l : List α) :
    (l.filter p).length + (l.filter (fun a => !p a)).length = l.length := by
  induction l with
  | nil => rfl
  | cons a t ih =>
    cases h : p a <;> simp [List.filter_cons, h] <;> omega

/-- C6: partitioning the recipient list into valid and invalid is total
and stable: the two output lengths sum to the input length, every input
recipient lands in exactly one of the two outputs, and each output is a
sublist of the input (so relative order is preserved). -/
theorem partition_total_stable (l : List EmailRecipient) :
    (validRecipients l).length + (invalidRecipients l).length = l.length ∧
    (∀ r ∈ l,
      (r ∈ validRecipients l ∧ r ∉ invalidRecipients l) ∨
      (r ∉ validRecipients l ∧ r ∈ invalidRecipients l)) ∧
    List.Sublist (validRecipients l) l ∧
    List.Sublist (invalidRecipients l) l := by
  refine ⟨filter_length_partition validateRecipient l, ?_, List.filter_sublist l,
    List.filter_sublist l⟩
  intro r hr
  cases h : validateRecipient r with
  | true =>
    left
    refine ⟨List.mem_filter.mpr ⟨hr, h⟩, fun hc => ?_⟩
    have := (List.mem_filter.mp hc).2
    simp [h] at this
  | false =>
    right
    refine ⟨fun hc => ?_, List.mem_filter.mpr ⟨hr, by simp [h]⟩⟩
    have := (List.mem_filter.mp hc).2
    simp [h] at this

/-- Witness for C6 at a concrete two-element list. -/
theorem partition_total_stable_witness :
    (validRecipients [recAnn, recBad]).length +
        (invalidRecipients [recAnn, recBad]).length = 2 ∧
    (∀ r ∈ [recAnn, recBad],
      (r ∈ validRecipients [recAnn, recBad] ∧
        r ∉ invalidRecipients [recAnn, recBad]) ∨
      (r ∉ validRecipients [recAnn, recBad] ∧
        r ∈ invalidRecipients [recAnn, recBad])) ∧
    List.Sublist (validRecipients [recAnn, recBad]) [recAnn, recBad] ∧
    List.Sublist (invalidRecipients [recAnn, recBad]) [recAnn, recBad] :=
  partition_total_stable [recAnn, recBad]

/-- C5: when no recipient passes syntax validation, `sendEmail` throws
the `'No valid recipients provided'` error and never constructs an SMTP
client (`sessionTls = none`), attempts no send and sends nothing. -/
theorem noValidRecipients_no_session (oracle : EmailRecipient → Option String)
    (env : Env) (l : List EmailRecipient) (subject html : String)
    (smtp : SmtpConfig) (h : (validRecipients l).length = 0) :
    sendEmailModel oracle env l subject html smtp =
      { errorThrown := some "No valid recipients provided"
        sessionTls := none
        sent := []
        attempted := [] } := by
  simp [sendEmailModel, h]

/-- Witness for C5 at a concrete all-invalid list. -/
theorem noValidRecipients_no_session_witness :
    sendEmailModel oracleOk env0 [recBad] "Hello" "World" smtp0 =
      { errorThrown := some "No valid recipients provided"
        sessionTls := none
        sent := []
        attempted := [] } :=
  noValidRecipients_no_session oracleOk env0 [recBad] "Hello" "World" smtp0
    (by decide)

/-- C1 (counterexample): a batch of three valid recipients in which the
second recipient's send is rejected at message level does NOT yield two
`Sent` plus one `DeliveryFailed` with the third recipient still
attempted; instead the rejection is rethrown out of `sendEmail`, only
one message was sent, and the third recipient is never attempted. -/
theorem sendEmail_rejection_aborts_batch_cex :
    (sendEmailModel oracleRejectBob env0 [recAnn, recBob, recCid] "Hi" "Body"
        smtp0).errorThrown = some "550 mailbox rejected" ∧
    (sendEmailModel oracleRejectBob env0 [recAnn, recBob, recCid] "Hi" "Body"
        smtp0).attempted = [recAnn, recBob] ∧
    (sendEmailModel oracleRejectBob env0 [recAnn, recBob, recCid] "Hi" "Body"
        smtp0).sent.length = 1 ∧
    ¬ recCid ∈ (sendEmailModel oracleRejectBob env0 [recAnn, recBob, recCid]
        "Hi" "Body" smtp0).attempted := by
  decide

/-- C1 (amended): for a batch of three valid recipients whose second
send is rejected at message level, `sendEmail` rethrows that rejection:
the trace records the error, exactly the first recipient's message as
sent, and only the first two recipients as attempted — the loop does not
continue to the third recipient and no per-recipient outcome aggregate
is produced. -/
theorem sendEmail_rejection_propagates (oracle : EmailRecipient → Option String)
    (env : Env) (r1 r2 r3 : EmailRecipient) (subject html : String)
    (smtp : SmtpConfig) (e : String)
    (h1 : validateRecipient r1 = true) (h2 : validateRecipient r2 = true)
    (h3 : validateRecipient r3 = true)
    (ho1 : oracle r1 = none) (ho2 : oracle r2 = some e) :
    sendEmailModel oracle env [r1, r2, r3] subject html smtp =
      { errorThrown := some e
        sessionTls := some (env.nodeEnv == some "production")
        sent := [mkMessage smtp subject html r1]
        attempted := [r1, r2] } := by
  have hv : validRecipients [r1, r2, r3] = [r1, r2, r3] := by
    simp [validRecipients, List.filter_cons, h1, h2, h3]
  simp [sendEmailModel, hv, sendLoop, ho1, ho2]

/-- Witness for the amended C1 at concrete recipients and oracle. -/
theorem sendEmail_rejection_propagates_witness :
    sendEmailModel oracleRejectBob env0 [recAnn, recBob, recCid] "Hi" "Body"
        smtp0 =
      { errorThrown := some "550 mailbox rejected"
        sessionTls := some (env0.nodeEnv == some "production")
        sent := [mkMessage smtp0 "Hi" "Body" recAnn]
        attempted := [recAnn, recBob] } :=
  sendEmail_rejection_propagates oracleRejectBob env0 recAnn recBob recCid
    "Hi" "Body" smtp0 "550 mailbox rejected" (by decide) (by decide)
    (by decide) (by decide) (by decide)

/-- C3: with `NODE_ENV` unset (or set to `development`), the SMTP client
is constructed with `tls.rejectUnauthorized = false` even when the
documented `TLS_REJECT_UNAUTHORIZED` variable is explicitly set to
`true`: certificate validation is disabled by default, and the
environment variable that `.env.example` documents for this surface is
never read by the code. -/
theorem tls_validation_disabled_by_default :
    (sendEmailModel oracleOk
        { nodeEnv := none, tlsRejectUnauthorizedVar := some "true" }
        [recAnn] "Hi" "Body" smtp0).sessionTls = some false ∧
    (sendEmailModel oracleOk
        { nodeEnv := some "development", tlsRejectUnauthorizedVar := some "true" }
        [recAnn] "Hi" "Body" smtp0).sessionTls = some false ∧
    (sendEmailModel oracleOk
        { nodeEnv := some "production", tlsRejectUnauthorizedVar := some "false" }
        [recAnn] "Hi" "Body" smtp0).sessionTls = some true := by
  decide

/-- C2 (counterexample): a well-shaped request whose only recipient
fails syntax validation is answered with HTTP status 500, not the
claimed 400. -/
theorem allInvalid_status500_cex :
    (sendEmailHandlerModel oracleOk env0 reqAllInvalid).status = 500 ∧
    ¬ (sendEmailHandlerModel oracleOk env0 reqAllInvalid).status = 400 := by
  decide

/-- C2 (amended): a request whose recipients all fail syntax validation
is surfaced as a server error: status 500 with message
`'Failed to send email'`, exactly like SMTP/system failures, because the
thrown message `'No valid recipients provided'` contains none of the
substrings `'required'`, `'must be'`, `'Missing'` that the handler uses
to recognise client errors; only errors whose messages contain one of
those substrings receive status 400. -/
theorem allInvalid_surfaced_as_500 (oracle : EmailRecipient → Option String)
    (env : Env) (b : EmailRequestBody)
    (hshape : validateEmailRequestModel b = none)
    (hall : (validRecipients b.recipients).length = 0) :
    sendEmailHandlerModel oracle env b =
      { status := 500
        success := false
        message := "Failed to send email"
        error := if env.nodeEnv == some "development"
          then some "No valid recipients provided" else none } := by
  have hmsg : isValidationError "No valid recipients provided" = false := by
    decide
  simp [sendEmailHandlerModel, hshape, sendEmailModel, hall, errResponse, hmsg]

/-- Witness for the amended C2 at a concrete all-invalid request. -/
theorem allInvalid_surfaced_as_500_witness :
    sendEmailHandlerModel oracleOk env0 reqAllInvalid =
      { status := 500
        success := false
        message := "Failed to send email"
        error := if env0.nodeEnv == some "development"
          then some "No valid recipients provided" else none } :=
  allInvalid_surfaced_as_500 oracleOk env0 reqAllInvalid (by decide) (by decide)

/-- C10: whenever the handler completes without error it answers 200
with the message `"Email sent successfully to N recipient(s)"` where `N`
is the length of the full `recipients` array of the request — including
recipients that were partitioned as invalid and to whom nothing was
sent. -/
theorem success_message_counts_all_recipients
    (oracle : EmailRecipient → Option String) (env : Env)
    (b : EmailRequestBody)
    (hshape : validateEmailRequestModel b = none)
    (hok : (sendEmailModel oracle env b.recipients b.subject b.body
      (toSmtpConfig b.smtpConfig)).errorThrown = none) :
    sendEmailHandlerModel oracle env b =
      { status := 200
        success := true
        message := "Email sent successfully to " ++
          toString b.recipients.length ++ " recipient(s)"
        error := none } := by
  simp [sendEmailHandlerModel, hshape, hok]

/-- Witness for C10: a request with one valid and one invalid recipient
completes successfully, reports `"2 recipient(s)"`, yet only one message
was actually sent. -/
theorem success_message_counts_all_recipients_witness :
    sendEmailHandlerModel oracleOk env0 reqMixed =
      { status := 200
        success := true
        message := "Email sent successfully to 2 recipient(s)"
        error := none } ∧
    (sendEmailModel oracleOk env0 reqMixed.recipients reqMixed.subject
      reqMixed.body (toSmtpConfig reqMixed.smtpConfig)).sent.length = 1 := by
  refine ⟨?_, by decide⟩
  have h := success_message_counts_all_recipients oracleOk env0 reqMixed
    (by decide) (by decide)
  rw [h]
  decide

/-- C4 (counterexample): two recipients with regex-valid addresses on
which `render("[email]", r)` differs from the address.  For the address
`a[company]@b.co` the company pass runs over the already-substituted
string and rewrites the token occurrence inside the substituted
address; for the address `$&@x.co` the email pass itself expands the
dollar-ampersand match directive of `String.replace`, yielding
`[email]@x.co`. -/
theorem render_email_token_cex :
    validateRecipient recTok = true ∧
    replaceVariables "[email]" recTok = "a@b.co" ∧
    ¬ replaceVariables "[email]" recTok = recTok.email ∧
    validateRecipient recDollar = true ∧
    replaceVariables "[email]" recDollar = "[email]@x.co" ∧
    ¬ replaceVariables "[email]" recDollar = recDollar.email := by
  decide

/-- C4 (amended): for every recipient whose address contains no
case-insensitive occurrence of `[company]` (the one token substituted
after `[email]`) and no dollar substitution directive of
`String.replace`, `render("[email]", r)` — and likewise the upper-case
`render("[EMAIL]", r)` — equals the address; and an absent optional
field substitutes to the empty string, as in
`render("[first_name]", r) = ""` when `firstName` is absent. -/
theorem render_email_token_amended (r : EmailRecipient)
    (hc : containsBy ciEq "[company]".data r.email.data = false)
    (hd : hasSubstPattern r.email.data = false) :
    replaceVariables "[email]" r = r.email ∧
    replaceVariables "[EMAIL]" r = r.email ∧
    (r.firstName = none → replaceVariables "[first_name]" r = "") := by
  have e4 : replTok "[company]".data (orEmpty r.company).data r.email.data
      = r.email.data :=
    replTok_of_not_contains _ _ _ hc
  refine ⟨?_, ?_, ?_⟩
  · have e1 : replTok "[first_name]".data (orEmpty r.firstName).data
        "[email]".data = "[email]".data :=
      replTok_of_not_contains _ _ _ (by decide)
    have e2 : replTok "[last_name]".data (orEmpty r.lastName).data
        "[email]".data = "[email]".data :=
      replTok_of_not_contains _ _ _ (by decide)
    have e3 : replTok "[email]".data r.email.data "[email]".data
        = r.email.data :=
      replTok_full_clean _ _ _ (by decide) (by decide) (by decide) hd
    show String.mk
      (replTok "[company]".data (orEmpty r.company).data
        (replTok "[email]".data r.email.data
          (replTok "[last_name]".data (orEmpty r.lastName).data
            (replTok "[first_name]".data (orEmpty r.firstName).data
              "[email]".data)))) = r.email
    rw [e1, e2, e3, e4, string_mk_data]
  · have e1 : replTok "[first_name]".data (orEmpty r.firstName).data
        "[EMAIL]".data = "[EMAIL]".data :=
      replTok_of_not_contains _ _ _ (by decide)
    have e2 : replTok "[last_name]".data (orEmpty r.lastName).data
        "[EMAIL]".data = "[EMAIL]".data :=
      replTok_of_not_contains _ _ _ (by decide)
    have e3 : replTok "[email]".data r.email.data "[EMAIL]".data
        = r.email.data :=
      replTok_full_clean _ _ _ (by decide) (by decide) (by decide) hd
    show String.mk
      (replTok "[company]".data (orEmpty r.company).data
        (replTok "[email]".data r.email.data
          (replTok "[last_name]".data (orEmpty r.lastName).data
            (replTok "[first_name]".data (orEmpty r.firstName).data
              "[EMAIL]".data)))) = r.email
    rw [e1, e2, e3, e4, string_mk_data]
  · intro hf
    have e1 : replTok "[first_name]".data (orEmpty none).data
        "[first_name]".data = [] :=
      replTok_full_clean _ _ _ (by decide) (by decide) (by decide) (by decide)
    show String.mk
      (replTok "[company]".data (orEmpty r.company).data
        (replTok "[email]".data r.email.data
          (replTok "[last_name]".data (orEmpty r.lastName).data
            (replTok "[first_name]".data (orEmpty r.firstName).data
              "[first_name]".data)))) = ""
    rw [hf, e1]
    rfl

/-- Witness for the amended C4 at a concrete recipient. -/
theorem render_email_token_amended_witness :
    replaceVariables "[email]" recBob = recBob.email ∧
    replaceVariables "[EMAIL]" recBob = recBob.email ∧
    (recBob.firstName = none → replaceVariables "[first_name]" recBob = "") :=
  render_email_token_amended recBob (by decide) (by decide)

/-- C8: rendering a template with no case-insensitive occurrence of any
of the four placeholder tokens returns the template unchanged, and
rendering is deterministic — identical template/recipient inputs yield
identical output. -/
theorem render_no_tokens_identity (t : String) (r : EmailRecipient)
    (h1 : containsBy ciEq "[first_name]".data t.data = false)
    (h2 : containsBy ciEq "[last_name]".data t.data = false)
    (h3 : containsBy ciEq "[email]".data t.data = false)
    (h4 : containsBy ciEq "[company]".data t.data = false) :
    replaceVariables t r = t ∧
    ∀ (t2 : String) (r2 : EmailRecipient), t = t2 → r = r2 →
      replaceVariables t r = replaceVariables t2 r2 := by
  refine ⟨?_, fun t2 r2 ht hr => ht ▸ hr ▸ rfl⟩
  have e1 : replTok "[first_name]".data (orEmpty r.firstName).data t.data
      = t.data :=
    replTok_of_not_contains _ _ _ h1
  have e2 : replTok "[last_name]".data (orEmpty r.lastName).data t.data
      = t.data :=
    replTok_of_not_contains _ _ _ h2
  have e3 : replTok "[email]".data r.email.data t.data = t.data :=
    replTok_of_not_contains _ _ _ h3
  have e4 : replTok "[company]".data (orEmpty r.company).data t.data
      = t.data :=
    replTok_of_not_contains _ _ _ h4
  show String.mk
    (replTok "[company]".data (orEmpty r.company).data
      (replTok "[email]".data r.email.data
        (replTok "[last_name]".data (orEmpty r.lastName).data
          (replTok "[first_name]".data (orEmpty r.firstName).data
            t.data)))) = t
  rw [e1, e2, e3, e4, string_mk_data]

/-- Witness for C8 at a concrete token-free template. -/
theorem render_no_tokens_identity_witness :
    replaceVariables "Hello there, world" recAnn = "Hello there, world" ∧
    ∀ (t2 : String) (r2 : EmailRecipient), "Hello there, world" = t2 →
      recAnn = r2 →
      replaceVariables "Hello there, world" recAnn = replaceVariables t2 r2 :=
  render_no_tokens_identity "Hello there, world" recAnn (by decide)
    (by decide) (by decide) (by decide)

/-- C9 (counterexample): with `firstName` equal to the literal
`"[email]"`, `render("[first_name]", r)` does not in general equal the
recipient's address: for the regex-valid address `$$@x.co` the email
pass expands the dollar-dollar directive of `String.replace` and yields
`$@x.co`, and for the regex-valid address `a[company]@b.co` the company
pass rewrites the token occurrence inside the substituted address and
yields `a@b.co`. -/
theorem render_sequential_substitution_cex :
    validateRecipient recDollar2 = true ∧
    replaceVariables "[first_name]" recDollar2 = "$@x.co" ∧
    ¬ replaceVariables "[first_name]" recDollar2 = recDollar2.email ∧
    validateRecipient recTok2 = true ∧
    replaceVariables "[first_name]" recTok2 = "a@b.co" ∧
    ¬ replaceVariables "[first_name]" recTok2 = recTok2.email := by
  decide

/-- C9 (amended): substitution is sequential in the fixed order
first_name, last_name, email, company, each pass running over the
already substituted string: if `firstName` is the literal text
`"[email]"`, the token injected by the first pass is substituted by the
later email pass, so `render("[first_name]", r)` equals the recipient's
address — rather than the literal `"[email]"` — for every address
itself free of the later-processed `[company]` token and of dollar
substitution directives. -/
theorem render_sequential_substitution (r : EmailRecipient)
    (hf : r.firstName = some "[email]")
    (hc : containsBy ciEq "[company]".data r.email.data = false)
    (hd : hasSubstPattern r.email.data = false) :
    replaceVariables "[first_name]" r = r.email := by
  have e1 : replTok "[first_name]".data (orEmpty (some "[email]")).data
      "[first_name]".data = "[email]".data :=
    replTok_full_clean _ _ _ (by decide) (by decide) (by decide) (by decide)
  have e2 : replTok "[last_name]".data (orEmpty r.lastName).data
      "[email]".data = "[email]".data :=
    replTok_of_not_contains _ _ _ (by decide)
  have e3 : replTok "[email]".data r.email.data "[email]".data
      = r.email.data :=
    replTok_full_clean _ _ _ (by decide) (by decide) (by decide) hd
  have e4 : replTok "[company]".data (orEmpty r.company).data r.email.data
      = r.email.data :=
    replTok_of_not_contains _ _ _ hc
  show String.mk
    (replTok "[company]".data (orEmpty r.company).data
      (replTok "[email]".data r.email.data
        (replTok "[last_name]".data (orEmpty r.lastName).data
          (replTok "[first_name]".data (orEmpty r.firstName).data
            "[first_name]".data)))) = r.email
  rw [hf, e1, e2, e3, e4, string_mk_data]

/-- Witness for the amended C9 at a concrete recipient whose first name
is the literal text of the email token. -/
theorem render_sequential_substitution_witness :
    replaceVariables "[first_name]"
      { email := "ann@example.com", firstName := some "[email]"
        lastName := none, company := none } = "ann@example.com" :=
  render_sequential_substitution
    { email := "ann@example.com", firstName := some "[email]"
      lastName := none, company := none } (by decide) (by decide) (by decide)

/-! Lemmas for the address-shape equivalence (C7). -/

theorem data_mk (l : List Char) : (String.mk l).data = l := rfl

theorem validChar_spec (c : Char) :
    validChar c = true ↔ (¬ c.isWhitespace ∧ c ≠ '@') := by
  simp [validChar, Bool.and_eq_true, bne_iff_ne, Bool.not_eq_true']

theorem seg_spec (l : List Char) :
    seg l = true ↔ l ≠ [] ∧ ∀ c ∈ l, validChar c = true := by
  simp [seg, Bool.and_eq_true, List.all_eq_true, List.isEmpty_iff,
    Bool.not_eq_true']

theorem getD_drop_take (cs : List Char) (a m t : Nat) (h1 : t < m)
    (h2 : a + t < cs.length) :
    ((cs.drop a).take m).getD t ' ' = cs.getD (a + t) ' ' := by
  have ht : t < ((cs.drop a).take m).length := by
    rw [List.length_take, List.length_drop]
    omega
  rw [List.getD_eq_getElem _ _ ht, List.getD_eq_getElem _ _ h2]
  rw [List.getElem_take, List.getElem_drop]

theorem seg_slice_iff (cs : List Char) (a b : Nat) (hb : b ≤ cs.length) :
    seg ((cs.drop a).take (b - a)) = true ↔
      (a < b ∧ ∀ k, a ≤ k → k < b → validChar (cs.getD k ' ') = true) := by
  constructor
  · intro h
    obtain ⟨hne, hall⟩ := (seg_spec _).mp h
    have hpos : 0 < ((cs.drop a).take (b - a)).length :=
      List.length_pos.mpr hne
    rw [List.length_take, List.length_drop] at hpos
    have hab : a < b := by omega
    refine ⟨hab, fun k hak hkb => ?_⟩
    have hkn : k < cs.length := by omega
    have heq : ((cs.drop a).take (b - a)).getD (k - a) ' '
        = cs.getD (a + (k - a)) ' ' :=
      getD_drop_take cs a (b - a) (k - a) (by omega) (by omega)
    rw [show a + (k - a) = k from by omega] at heq
    have htlen : k - a < ((cs.drop a).take (b - a)).length := by
      rw [List.length_take, List.length_drop]
      omega
    have hmem : ((cs.drop a).take (b - a)).getD (k - a) ' '
        ∈ (cs.drop a).take (b - a) := by
      rw [List.getD_eq_getElem _ _ htlen]
      exact List.getElem_mem htlen
    rw [heq] at hmem
    exact hall _ hmem
  · rintro ⟨hab, hv⟩
    apply (seg_spec _).mpr
    constructor
    · apply List.ne_nil_of_length_pos
      rw [List.length_take, List.length_drop]
      omega
    · intro c hcmem
      obtain ⟨t, ht, hct⟩ := List.mem_iff_getElem.mp hcmem
      have htm : t < b - a ∧ a + t < cs.length := by
        rw [List.length_take, List.length_drop] at ht
        omega
      have heq : ((cs.drop a).take (b - a)).getD t ' ' = cs.getD (a + t) ' ' :=
        getD_drop_take cs a (b - a) t htm.1 htm.2
      have hc : c = cs.getD (a + t) ' ' := by
        rw [← heq, List.getD_eq_getElem _ _ ht, hct]
      rw [hc]
      exact hv (a + t) (by omega) (by omega)

theorem regex_imp_shape (cs : List Char)
    (h : emailRegexTest (String.mk cs) = true) : specEmailShape cs := by
  simp only [emailRegexTest, data_mk] at h
  rw [List.any_eq_true] at h
  obtain ⟨p, hpmem, h⟩ := h
  rw [List.any_eq_true] at h
  obtain ⟨q, hqmem, h⟩ := h
  rw [List.mem_range] at hpmem hqmem
  simp only [Bool.and_eq_true, beq_iff_eq, decide_eq_true_eq] at h
  obtain ⟨⟨⟨⟨⟨hat, hdot⟩, hpq⟩, hA⟩, hB⟩, hC⟩ := h
  have hA2 : seg ((cs.drop 0).take (p - 0)) = true := by
    rw [List.drop_zero, Nat.sub_zero]
    exact hA
  have hAs := (seg_slice_iff cs 0 p (le_of_lt hpmem)).mp hA2
  have hBs := (seg_slice_iff cs (p + 1) q (le_of_lt hqmem)).mp hB
  have hC2 : seg ((cs.drop (q + 1)).take (cs.length - (q + 1))) = true := by
    rw [← List.length_drop, List.take_length]
    exact hC
  have hCs := (seg_slice_iff cs (q + 1) cs.length le_rfl).mp hC2
  have hkey : ∀ k, k < cs.length → k ≠ p → validChar (cs.getD k ' ') = true := by
    intro k hk hkp
    rcases Nat.lt_trichotomy k p with hlt | heq | hgt
    · exact hAs.2 k (Nat.zero_le k) hlt
    · exact absurd heq hkp
    · rcases Nat.lt_or_ge k q with hkq | hqk
      · exact hBs.2 k (by omega) hkq
      · rcases Nat.eq_or_lt_of_le hqk with heq2 | hgt2
        · rw [← heq2, hdot]
          decide
        · exact hCs.2 k (by omega) hk
  refine ⟨?_, ⟨p, ⟨hpmem, hat⟩, ?_⟩, p, q, hat, hdot, hAs.1, hBs.1, hCs.1⟩
  · intro c hcmem
    obtain ⟨i, hi, hic⟩ := List.mem_iff_getElem.mp hcmem
    have hgd : cs.getD i ' ' = c := by
      rw [List.getD_eq_getElem _ _ hi, hic]
    by_cases hip : i = p
    · rw [← hgd, hip, hat]
      decide
    · have hv := (validChar_spec _).mp (hkey i hi hip)
      rw [← hgd]
      exact hv.1
  · rintro y ⟨hy, hyat⟩
    by_contra hyp
    have hv := (validChar_spec _).mp (hkey y hy hyp)
    exact hv.2 hyat

theorem shape_imp_regex (cs : List Char) (h : specEmailShape cs) :
    emailRegexTest (String.mk cs) = true := by
  obtain ⟨hws, huniq, i, j, hat, hdot, hpos, hij, hjn⟩ := h
  have hin : i < cs.length := by omega
  have hjlt : j < cs.length := by omega
  obtain ⟨p0, hp0, hp0u⟩ := huniq
  have hip0 : i = p0 := hp0u i ⟨hin, hat⟩
  have hkey : ∀ k, k < cs.length → k ≠ i → validChar (cs.getD k ' ') = true := by
    intro k hk hki
    apply (validChar_spec _).mpr
    refine ⟨?_, ?_⟩
    · have hmem : cs.getD k ' ' ∈ cs := by
        rw [List.getD_eq_getElem _ _ hk]
        exact List.getElem_mem hk
      exact hws _ hmem
    · intro hkat
      have hk0 : k = p0 := hp0u k ⟨hk, hkat⟩
      omega
  simp only [emailRegexTest, data_mk]
  rw [List.any_eq_true]
  refine ⟨i, List.mem_range.mpr hin, ?_⟩
  rw [List.any_eq_true]
  refine ⟨j, List.mem_range.mpr hjlt, ?_⟩
  have hA : seg (cs.take i) = true := by
    have hs := (seg_slice_iff cs 0 i (le_of_lt hin)).mpr
      ⟨hpos, fun k hk1 hk2 => hkey k (by omega) (by omega)⟩
    rw [List.drop_zero, Nat.sub_zero] at hs
    exact hs
  have hB : seg ((cs.drop (i + 1)).take (j - (i + 1))) = true :=
    (seg_slice_iff cs (i + 1) j (le_of_lt hjlt)).mpr
      ⟨hij, fun k hk1 hk2 => hkey k (by omega) (by omega)⟩
  have hC : seg (cs.drop (j + 1)) = true := by
    have hs := (seg_slice_iff cs (j + 1) cs.length le_rfl).mpr
      ⟨hjn, fun k hk1 hk2 => hkey k (by omega) (by omega)⟩
    rw [← List.length_drop, List.take_length] at hs
    exact hs
  simp only [Bool.and_eq_true, beq_iff_eq, decide_eq_true_eq]
  exact ⟨⟨⟨⟨⟨hat, hdot⟩, by omega⟩, hA⟩, hB⟩, hC⟩

/-- C7: the validation regex accepts an address exactly when it has the
claimed shape: no whitespace, exactly one at-sign, and a dot strictly
after the at-sign with nonempty segments on both sides of the at-sign
and around that dot. -/
theorem validateRecipient_iff_shape (r : EmailRecipient) :
    validateRecipient r = true ↔ specEmailShape r.email.data := by
  constructor
  · intro h
    apply regex_imp_shape
    rw [string_mk_data]
    exact h
  · intro h
    have hr := shape_imp_regex r.email.data h
    rw [string_mk_data] at hr
    exact hr

/-- Witness for C7: the shape holds of a concretely valid address and
fails for a concretely invalid one. -/
theorem validateRecipient_iff_shape_witness :
    specEmailShape "ann@example.com".data ∧
    ¬ specEmailShape "not-an-email".data := by
  constructor
  · exact (validateRecipient_iff_shape recAnn).mp (by decide)
  · intro h
    have hr := (validateRecipient_iff_shape recBad).mpr h
    exact absurd hr (by decide)
